import Mathlib

/-!
Verification of the MiniatureProjectTracker backend (Rust) against its
natural-language specification.  The Rust data model, repository layer,
validation layer, and local storage backend are shallowly embedded as
executable Lean definitions; theorems below settle the spec claims.

Conventions of the embedding:
  * `i64` ids are `Int`, timestamps (`DateTime<Utc>`) are `Nat`, byte
    payloads are `List Nat`.
  * SQL tables are lists of row structures inside a `Db` state record.
  * `serde_json` (de)serialization of the recipe string-sequence columns
    is an abstract `Codec` parameter: the column representation is a type
    parameter `J`, `toJson : List String → J` models
    `serde_json::to_string`, and `fromJson : J → Option (List String)`
    models `serde_json::from_str` (with `none` for a failed parse).
  * `char::is_alphanumeric` (full Unicode tables) is an abstract
    parameter `isAlnum : Char → Bool` of the validation functions;
    `char::is_ascii_punctuation` and `str::trim` are defined exactly.
-/

namespace MiniTracker

/-! ### Rust character classification and trimming -/

/-- Rust `char::is_ascii_punctuation`: U+0021..U+002F, U+003A..U+0040,
U+005B..U+0060, U+007B..U+007E. -/
def isAsciiPunctuation (c : Char) : Bool :=
  (0x21 ≤ c.toNat && c.toNat ≤ 0x2f) || (0x3a ≤ c.toNat && c.toNat ≤ 0x40) ||
  (0x5b ≤ c.toNat && c.toNat ≤ 0x60) || (0x7b ≤ c.toNat && c.toNat ≤ 0x7e)

/-- Rust `char::is_whitespace` (the Unicode White_Space property, a fixed
set of 25 code points). -/
def rustIsWhitespace (c : Char) : Bool :=
  c.toNat == 0x20 || (0x9 ≤ c.toNat && c.toNat ≤ 0xd) ||
  c.toNat == 0x85 || c.toNat == 0xa0 || c.toNat == 0x1680 ||
  (0x2000 ≤ c.toNat && c.toNat ≤ 0x200a) ||
  c.toNat == 0x2028 || c.toNat == 0x2029 || c.toNat == 0x202f ||
  c.toNat == 0x205f || c.toNat == 0x3000

/-- Rust `str::trim`: remove leading and trailing whitespace. -/
def rustTrim (s : List Char) : List Char :=
  ((s.dropWhile rustIsWhitespace).reverse.dropWhile rustIsWhitespace).reverse

/-! ### Validation layer (handlers/projects.rs, miniatures.rs, recipes.rs)

`create_project`, `update_project`, `create_miniature` and
`update_miniature` all guard name-like fields (`Project.name`,
`Project.army`, `Miniature.name`) with the same rejection test;
`create_recipe` and `update_recipe` guard `PaintingRecipe.name` with the
weaker emptiness-only test. -/

/-- The rejection condition of the handlers for name-like fields:
`s.trim().is_empty() || !s.chars().any(|c| c.is_alphanumeric() || c.is_ascii_punctuation())`. -/
def nameFieldRejected (isAlnum : Char → Bool) (s : String) : Bool :=
  (rustTrim s.data).isEmpty ||
    !(s.data.any fun c => isAlnum c || isAsciiPunctuation c)

/-- The rejection condition of `create_recipe` / `update_recipe` for
`PaintingRecipe.name`: `name.trim().is_empty()`. -/
def recipeNameRejected (s : String) : Bool :=
  (rustTrim s.data).isEmpty

/-- A sample stand-in for `char::is_alphanumeric` restricted to ASCII,
used to evaluate witnesses on concrete inputs. -/
def asciiAlnum (c : Char) : Bool :=
  c.isAlpha || c.isDigit

/-- C4: for every string `s`, `s` is accepted as a `Project.name`,
`Project.army`, or `Miniature.name` iff `s.trim()` is non-empty and `s`
contains at least one alphanumeric-or-ASCII-punctuation character; and
`s` is accepted as a `PaintingRecipe.name` iff `s.trim()` is non-empty
(the punctuation rule is not applied to recipe names). -/
theorem validation_equivalence (isAlnum : Char → Bool) (s : String) :
    (nameFieldRejected isAlnum s = false ↔
      rustTrim s.data ≠ [] ∧
        ∃ c ∈ s.data, isAlnum c = true ∨ isAsciiPunctuation c = true) ∧
    (recipeNameRejected s = false ↔ rustTrim s.data ≠ []) := by
  constructor
  · unfold nameFieldRejected
    rw [Bool.or_eq_false_iff]
    simp only [List.isEmpty_eq_false, Bool.not_eq_false', List.any_eq_true,
      Bool.or_eq_true, ne_eq]
  · unfold recipeNameRejected
    simp only [List.isEmpty_eq_false, ne_eq]

/-- Concrete check of `validation_equivalence`: the name "Ultramarines!"
is accepted both as a name-like field and as a recipe name, and the
equivalence yields its trimmed non-emptiness and a qualifying character. -/
theorem validation_equivalence_witness :
    rustTrim "Ultramarines!".data ≠ [] ∧
      ∃ c ∈ "Ultramarines!".data,
        asciiAlnum c = true ∨ isAsciiPunctuation c = true :=
  (validation_equivalence asciiAlnum "Ultramarines!").1.mp (by decide)

/-! ### Data model (shared-types/src/lib.rs) -/

inductive GameSystem
  | ageOfSigmar
  | horusHeresy
  | warhammer40k
deriving DecidableEq, Repr

inductive MiniatureType
  | troop
  | character
deriving DecidableEq, Repr

inductive ProgressStatus
  | unpainted
  | primed
  | basecoated
  | detailed
  | completed
deriving DecidableEq, Repr

structure Project where
  id : Int
  name : String
  game_system : GameSystem
  army : String
  description : Option String
  created_at : Nat
  updated_at : Nat
deriving DecidableEq, Repr

structure Miniature where
  id : Int
  project_id : Int
  name : String
  miniature_type : MiniatureType
  progress_status : ProgressStatus
  notes : Option String
  created_at : Nat
  updated_at : Nat
deriving DecidableEq, Repr

structure Photo where
  id : Int
  miniature_id : Int
  filename : String
  file_path : String
  file_size : Int
  mime_type : String
  uploaded_at : Nat
deriving DecidableEq, Repr

structure PaintingRecipe where
  id : Int
  name : String
  miniature_type : MiniatureType
  steps : List String
  paints_used : List String
  techniques : List String
  notes : Option String
  created_at : Nat
  updated_at : Nat
deriving DecidableEq, Repr

/-- A stored row of the painting_recipes table.  The steps / paints_used
/ techniques columns hold the serialized representation `J` (a JSON
string in the Rust code). -/
structure RecipeRow (J : Type) where
  id : Int
  name : String
  miniature_type : MiniatureType
  steps : J
  paints_used : J
  techniques : J
  notes : Option String
  created_at : Nat
  updated_at : Nat
deriving DecidableEq, Repr

/-- A row of the miniature_recipes link table. -/
structure MrLink where
  miniature_id : Int
  recipe_id : Int
deriving DecidableEq, Repr

/-- The relational database state: one list of rows per table. -/
structure Db (J : Type) where
  projects : List Project
  miniatures : List Miniature
  photos : List Photo
  recipes : List (RecipeRow J)
  links : List MrLink
deriving DecidableEq, Repr

/-- Abstract serde_json codec for the recipe Vec<String> columns. -/
structure Codec (J : Type) where
  toJson : List String → J
  fromJson : J → Option (List String)

/-! ### Request DTOs (shared-types/src/lib.rs) -/

structure CreateProjectRequest where
  name : String
  game_system : GameSystem
  army : String
  description : Option String
deriving DecidableEq, Repr

structure UpdateProjectRequest where
  name : Option String
  game_system : Option GameSystem
  army : Option String
  description : Option String
deriving DecidableEq, Repr

structure CreateMiniatureRequest where
  name : String
  miniature_type : MiniatureType
  notes : Option String
deriving DecidableEq, Repr

structure UpdateMiniatureRequest where
  name : Option String
  progress_status : Option ProgressStatus
  notes : Option String
deriving DecidableEq, Repr

structure CreateRecipeRequest where
  name : String
  miniature_type : MiniatureType
  steps : List String
  paints_used : List String
  techniques : List String
  notes : Option String
deriving DecidableEq, Repr

structure UpdateRecipeRequest where
  name : Option String
  steps : Option (List String)
  paints_used : Option (List String)
  techniques : Option (List String)
  notes : Option String
deriving DecidableEq, Repr

/-! ### Repository layer: projects (repositories/project_repository.rs) -/

variable {J : Type}

/-- ProjectRepository::find_by_id: SELECT ... WHERE id = ?. -/
def ProjectRepository.find_by_id (db : Db J) (id : Int) : Option Project :=
  db.projects.find? fun p => p.id == id

/-- ProjectRepository::create: INSERT ... RETURNING, with
created_at = updated_at = now.  The server-generated id is passed as
the newId parameter. -/
def ProjectRepository.create (db : Db J) (newId : Int) (now : Nat)
    (request : CreateProjectRequest) : Db J × Project :=
  let row : Project :=
    { id := newId, name := request.name, game_system := request.game_system,
      army := request.army, description := request.description,
      created_at := now, updated_at := now }
  ({ db with projects := db.projects ++ [row] }, row)

/-- The merge computed by ProjectRepository::update:
`request.name.unwrap_or(current.name)` becomes `Option.getD`, and
`request.description.or(current.description)` becomes `Option.or`. -/
def mergeProject (current : Project) (request : UpdateProjectRequest)
    (now : Nat) : Project :=
  { id := current.id
    name := request.name.getD current.name
    game_system := request.game_system.getD current.game_system
    army := request.army.getD current.army
    description := request.description.or current.description
    created_at := current.created_at
    updated_at := now }

/-- ProjectRepository::update: load the current row, merge, then
UPDATE ... SET name, game_system, army, description, updated_at
WHERE id = ? RETURNING the updated row; Ok(None) when the id is
absent. -/
def ProjectRepository.update (db : Db J) (now : Nat) (id : Int)
    (request : UpdateProjectRequest) : Db J × Option Project :=
  match ProjectRepository.find_by_id db id with
  | none => (db, none)
  | some current =>
    let merged := mergeProject current request now
    ({ db with projects := db.projects.map fun p =>
        if p.id == id then
          { p with name := merged.name, game_system := merged.game_system,
                   army := merged.army, description := merged.description,
                   updated_at := now }
        else p },
     some merged)

/-! ### Repository layer: miniatures (repositories/miniature_repository.rs) -/

/-- MiniatureRepository::find_by_id. -/
def MiniatureRepository.find_by_id (db : Db J) (id : Int) : Option Miniature :=
  db.miniatures.find? fun m => m.id == id

/-- MiniatureRepository::create: progress_status defaults to unpainted. -/
def MiniatureRepository.create (db : Db J) (newId : Int) (now : Nat)
    (project_id : Int) (request : CreateMiniatureRequest) :
    Db J × Miniature :=
  let row : Miniature :=
    { id := newId, project_id := project_id, name := request.name,
      miniature_type := request.miniature_type,
      progress_status := ProgressStatus.unpainted, notes := request.notes,
      created_at := now, updated_at := now }
  ({ db with miniatures := db.miniatures ++ [row] }, row)

/-- The merge computed by MiniatureRepository::update (name,
progress_status via unwrap_or; notes via Option::or; project_id and
miniature_type are not updatable). -/
def mergeMiniature (current : Miniature) (request : UpdateMiniatureRequest)
    (now : Nat) : Miniature :=
  { current with
    name := request.name.getD current.name
    progress_status := request.progress_status.getD current.progress_status
    notes := request.notes.or current.notes
    updated_at := now }

/-- MiniatureRepository::update: read-merge-write, Ok(None) when absent. -/
def MiniatureRepository.update (db : Db J) (now : Nat) (id : Int)
    (request : UpdateMiniatureRequest) : Db J × Option Miniature :=
  match MiniatureRepository.find_by_id db id with
  | none => (db, none)
  | some current =>
    let merged := mergeMiniature current request now
    ({ db with miniatures := db.miniatures.map fun m =>
        if m.id == id then
          { m with name := merged.name,
                   progress_status := merged.progress_status,
                   notes := merged.notes, updated_at := now }
        else m },
     some merged)

/-! ### Repository layer: recipes (repositories/recipe_repository.rs) -/

/-- Byte-order comparison of strings, modelling the SQL ORDER BY name
collation. -/
def charsLe : List Char → List Char → Bool
  | [], _ => true
  | _ :: _, [] => false
  | a :: as, b :: bs =>
    if a.toNat < b.toNat then true
    else if b.toNat < a.toNat then false
    else charsLe as bs

def insertByName (r : RecipeRow J) :
    List (RecipeRow J) → List (RecipeRow J)
  | [] => [r]
  | x :: xs =>
    if charsLe r.name.data x.name.data then r :: x :: xs
    else x :: insertByName r xs

/-- ORDER BY name, as a stable insertion sort. -/
def sortByName : List (RecipeRow J) → List (RecipeRow J)
  | [] => []
  | x :: xs => insertByName x (sortByName xs)

/-- Deserialize a stored recipe row into the domain record:
`serde_json::from_str(...).unwrap_or_default()` on each sequence
column, i.e. a failed parse becomes the empty sequence. -/
def RecipeRow.toRecipe (c : Codec J) (r : RecipeRow J) : PaintingRecipe :=
  { id := r.id, name := r.name, miniature_type := r.miniature_type,
    steps := (c.fromJson r.steps).getD [],
    paints_used := (c.fromJson r.paints_used).getD [],
    techniques := (c.fromJson r.techniques).getD [],
    notes := r.notes, created_at := r.created_at,
    updated_at := r.updated_at }

/-- RecipeRepository::find_by_id. -/
def RecipeRepository.find_by_id (c : Codec J) (db : Db J) (id : Int) :
    Option PaintingRecipe :=
  (db.recipes.find? fun r => r.id == id).map (RecipeRow.toRecipe c)

/-- RecipeRepository::find_all: SELECT ... ORDER BY name. -/
def RecipeRepository.find_all (c : Codec J) (db : Db J) :
    List PaintingRecipe :=
  (sortByName db.recipes).map (RecipeRow.toRecipe c)

/-- RecipeRepository::find_by_type: WHERE miniature_type = ? ORDER BY name. -/
def RecipeRepository.find_by_type (c : Codec J) (db : Db J)
    (t : MiniatureType) : List PaintingRecipe :=
  (sortByName (db.recipes.filter fun r => r.miniature_type == t)).map
    (RecipeRow.toRecipe c)

/-- RecipeRepository::create: the sequences are serialized before INSERT
and the RETURNING row is deserialized again for the returned record. -/
def RecipeRepository.create (c : Codec J) (db : Db J) (newId : Int)
    (now : Nat) (request : CreateRecipeRequest) : Db J × PaintingRecipe :=
  let row : RecipeRow J :=
    { id := newId, name := request.name,
      miniature_type := request.miniature_type,
      steps := c.toJson request.steps,
      paints_used := c.toJson request.paints_used,
      techniques := c.toJson request.techniques,
      notes := request.notes, created_at := now, updated_at := now }
  ({ db with recipes := db.recipes ++ [row] }, RecipeRow.toRecipe c row)

/-- The domain-level merge computed by RecipeRepository::update. -/
def mergeRecipe (current : PaintingRecipe) (request : UpdateRecipeRequest)
    (now : Nat) : PaintingRecipe :=
  { current with
    name := request.name.getD current.name
    steps := request.steps.getD current.steps
    paints_used := request.paints_used.getD current.paints_used
    techniques := request.techniques.getD current.techniques
    notes := request.notes.or current.notes
    updated_at := now }

/-- RecipeRepository::update: load+deserialize the current record, merge,
reserialize the sequences, UPDATE ... RETURNING, and deserialize the
returned row again. -/
def RecipeRepository.update (c : Codec J) (db : Db J) (now : Nat)
    (id : Int) (request : UpdateRecipeRequest) :
    Db J × Option PaintingRecipe :=
  match RecipeRepository.find_by_id c db id with
  | none => (db, none)
  | some current =>
    let merged := mergeRecipe current request now
    let stepsJ := c.toJson merged.steps
    let paintsJ := c.toJson merged.paints_used
    let techniquesJ := c.toJson merged.techniques
    ({ db with recipes := db.recipes.map fun r =>
        if r.id == id then
          { r with name := merged.name, steps := stepsJ,
                   paints_used := paintsJ, techniques := techniquesJ,
                   notes := merged.notes, updated_at := now }
        else r },
     some { id := current.id, name := merged.name,
            miniature_type := current.miniature_type,
            steps := (c.fromJson stepsJ).getD [],
            paints_used := (c.fromJson paintsJ).getD [],
            techniques := (c.fromJson techniquesJ).getD [],
            notes := merged.notes, created_at := current.created_at,
            updated_at := now })

/-- C1: for every entity update operation (Project, Miniature, Recipe)
and every partial update request: update loads the current record,
merges each provided field over the current value — absent (None)
fields retain the current value, provided (Some) fields, including
explicitly-empty values such as Some "" for description or notes,
overwrite it — writes the merged non-identity columns with
updated_at set to the current time, and returns the new record; when no
record with the id exists it returns "not found" without writing
anything.  (The recipe conjuncts assume the serde_json round-trip law.) -/
theorem update_merge_semantics (c : Codec J) (db : Db J) (now : Nat)
    (id : Int) (preq : UpdateProjectRequest)
    (mreq : UpdateMiniatureRequest) (rreq : UpdateRecipeRequest)
    (hrt : ∀ l, c.fromJson (c.toJson l) = some l) :
    (ProjectRepository.find_by_id db id = none →
      ProjectRepository.update db now id preq = (db, none)) ∧
    (∀ cur, ProjectRepository.find_by_id db id = some cur →
      ProjectRepository.update db now id preq =
        ({ db with projects := db.projects.map fun p =>
            if p.id == id then
              { p with name := (mergeProject cur preq now).name,
                       game_system := (mergeProject cur preq now).game_system,
                       army := (mergeProject cur preq now).army,
                       description := (mergeProject cur preq now).description,
                       updated_at := now }
            else p },
         some (mergeProject cur preq now))) ∧
    (∀ cur,
      (preq.name = none → (mergeProject cur preq now).name = cur.name) ∧
      (∀ v, preq.name = some v → (mergeProject cur preq now).name = v) ∧
      (preq.game_system = none →
        (mergeProject cur preq now).game_system = cur.game_system) ∧
      (∀ v, preq.game_system = some v →
        (mergeProject cur preq now).game_system = v) ∧
      (preq.army = none → (mergeProject cur preq now).army = cur.army) ∧
      (∀ v, preq.army = some v → (mergeProject cur preq now).army = v) ∧
      (preq.description = none →
        (mergeProject cur preq now).description = cur.description) ∧
      (∀ v, preq.description = some v →
        (mergeProject cur preq now).description = some v) ∧
      (mergeProject cur preq now).updated_at = now ∧
      (mergeProject cur preq now).id = cur.id ∧
      (mergeProject cur preq now).created_at = cur.created_at) ∧
    (MiniatureRepository.find_by_id db id = none →
      MiniatureRepository.update db now id mreq = (db, none)) ∧
    (∀ cur, MiniatureRepository.find_by_id db id = some cur →
      MiniatureRepository.update db now id mreq =
        ({ db with miniatures := db.miniatures.map fun m =>
            if m.id == id then
              { m with name := (mergeMiniature cur mreq now).name,
                       progress_status :=
                         (mergeMiniature cur mreq now).progress_status,
                       notes := (mergeMiniature cur mreq now).notes,
                       updated_at := now }
            else m },
         some (mergeMiniature cur mreq now))) ∧
    (∀ cur,
      (mreq.name = none → (mergeMiniature cur mreq now).name = cur.name) ∧
      (∀ v, mreq.name = some v → (mergeMiniature cur mreq now).name = v) ∧
      (mreq.progress_status = none →
        (mergeMiniature cur mreq now).progress_status =
          cur.progress_status) ∧
      (∀ v, mreq.progress_status = some v →
        (mergeMiniature cur mreq now).progress_status = v) ∧
      (mreq.notes = none →
        (mergeMiniature cur mreq now).notes = cur.notes) ∧
      (∀ v, mreq.notes = some v →
        (mergeMiniature cur mreq now).notes = some v) ∧
      (mergeMiniature cur mreq now).updated_at = now ∧
      (mergeMiniature cur mreq now).id = cur.id ∧
      (mergeMiniature cur mreq now).project_id = cur.project_id ∧
      (mergeMiniature cur mreq now).miniature_type = cur.miniature_type ∧
      (mergeMiniature cur mreq now).created_at = cur.created_at) ∧
    (RecipeRepository.find_by_id c db id = none →
      RecipeRepository.update c db now id rreq = (db, none)) ∧
    (∀ cur, RecipeRepository.find_by_id c db id = some cur →
      RecipeRepository.update c db now id rreq =
        ({ db with recipes := db.recipes.map fun r =>
            if r.id == id then
              { r with name := (mergeRecipe cur rreq now).name,
                       steps := c.toJson (mergeRecipe cur rreq now).steps,
                       paints_used :=
                         c.toJson (mergeRecipe cur rreq now).paints_used,
                       techniques :=
                         c.toJson (mergeRecipe cur rreq now).techniques,
                       notes := (mergeRecipe cur rreq now).notes,
                       updated_at := now }
            else r },
         some (mergeRecipe cur rreq now))) ∧
    (∀ cur,
      (rreq.name = none → (mergeRecipe cur rreq now).name = cur.name) ∧
      (∀ v, rreq.name = some v → (mergeRecipe cur rreq now).name = v) ∧
      (rreq.steps = none → (mergeRecipe cur rreq now).steps = cur.steps) ∧
      (∀ v, rreq.steps = some v → (mergeRecipe cur rreq now).steps = v) ∧
      (rreq.paints_used = none →
        (mergeRecipe cur rreq now).paints_used = cur.paints_used) ∧
      (∀ v, rreq.paints_used = some v →
        (mergeRecipe cur rreq now).paints_used = v) ∧
      (rreq.techniques = none →
        (mergeRecipe cur rreq now).techniques = cur.techniques) ∧
      (∀ v, rreq.techniques = some v →
        (mergeRecipe cur rreq now).techniques = v) ∧
      (rreq.notes = none → (mergeRecipe cur rreq now).notes = cur.notes) ∧
      (∀ v, rreq.notes = some v →
        (mergeRecipe cur rreq now).notes = some v) ∧
      (mergeRecipe cur rreq now).updated_at = now ∧
      (mergeRecipe cur rreq now).id = cur.id ∧
      (mergeRecipe cur rreq now).created_at = cur.created_at) := by
  refine ⟨?_, ?_, ?_, ?_, ?_, ?_, ?_, ?_, ?_⟩
  · intro h
    simp [ProjectRepository.update, h]
  · intro cur h
    simp [ProjectRepository.update, h]
  · intro cur
    refine ⟨?_, ?_, ?_, ?_, ?_, ?_, ?_, ?_, rfl, rfl, rfl⟩ <;>
      first
        | (intro h; simp [mergeProject, h, Option.or])
        | (intro v h; simp [mergeProject, h, Option.or])
  · intro h
    simp [MiniatureRepository.update, h]
  · intro cur h
    simp [MiniatureRepository.update, h]
  · intro cur
    refine ⟨?_, ?_, ?_, ?_, ?_, ?_, rfl, rfl, rfl, rfl, rfl⟩ <;>
      first
        | (intro h; simp [mergeMiniature, h, Option.or])
        | (intro v h; simp [mergeMiniature, h, Option.or])
  · intro h
    simp [RecipeRepository.update, h]
  · intro cur h
    simp [RecipeRepository.update, h, hrt, mergeRecipe]
  · intro cur
    refine ⟨?_, ?_, ?_, ?_, ?_, ?_, ?_, ?_, ?_, ?_, rfl, rfl, rfl⟩ <;>
      first
        | (intro h; simp [mergeRecipe, h, Option.or])
        | (intro v h; simp [mergeRecipe, h, Option.or])

/-! ### Concrete instances used to evaluate witnesses -/

/-- Column representation for witnesses: the column stores the parsed
value directly, so the serde round-trip law holds definitionally. -/
abbrev ColW : Type := Option (List String)

def codecW : Codec ColW := { toJson := some, fromJson := id }

def projW : Project :=
  { id := 1, name := "Ultramarines", game_system := .warhammer40k,
    army := "Ultramarines", description := some "d",
    created_at := 3, updated_at := 3 }

def miniW : Miniature :=
  { id := 1, project_id := 1, name := "Captain",
    miniature_type := .character, progress_status := .unpainted,
    notes := none, created_at := 3, updated_at := 3 }

def recRowW : RecipeRow ColW :=
  { id := 1, name := "Gold", miniature_type := .troop,
    steps := some ["base"], paints_used := some ["gold"],
    techniques := some [], notes := none, created_at := 3,
    updated_at := 3 }

def photoW : Photo :=
  { id := 1, miniature_id := 1, filename := "cap.png",
    file_path := "miniatures/1/u_cap.png", file_size := 2048,
    mime_type := "image/png", uploaded_at := 4 }

def dbW : Db ColW :=
  { projects := [projW], miniatures := [miniW], photos := [photoW],
    recipes := [recRowW], links := [{ miniature_id := 1, recipe_id := 1 }] }

def mreqW : UpdateMiniatureRequest :=
  { name := none, progress_status := some .completed, notes := none }

/-- Concrete check of `update_merge_semantics`: updating miniature 1 of
`dbW` with only progress_status provided rewrites the row in place and
returns the merged record. -/
theorem update_merge_semantics_witness :
    MiniatureRepository.find_by_id dbW 1 = some miniW ∧
    MiniatureRepository.update dbW 9 1 mreqW =
      ({ dbW with miniatures := dbW.miniatures.map fun m =>
          if m.id == 1 then
            { m with name := (mergeMiniature miniW mreqW 9).name,
                     progress_status :=
                       (mergeMiniature miniW mreqW 9).progress_status,
                     notes := (mergeMiniature miniW mreqW 9).notes,
                     updated_at := 9 }
          else m },
       some (mergeMiniature miniW mreqW 9)) :=
  ⟨by decide,
   (update_merge_semantics codecW dbW 9 1
      { name := none, game_system := none, army := none, description := none }
      mreqW
      { name := none, steps := none, paints_used := none,
        techniques := none, notes := none }
      (fun _ => rfl)).2.2.2.2.1 miniW (by decide)⟩

/-! ### Delete operations and schema cascades -/

/-- Modelled from the spec: the database schema (the backend's
migrations directory, which is not under src/) declares the foreign
keys miniatures.project_id → projects.id, photos.miniature_id →
miniatures.id and miniature_recipes.miniature_id → miniatures.id with
ON DELETE CASCADE — "Deleting a Project cascades to delete all its
Miniatures (and transitively their Photos and recipe links)" and
"Deleting a Miniature cascades to delete its Photos and its recipe
links (not the recipes themselves)".  This function removes the
miniatures selected by `dead` together with their photo rows and their
link rows; the painting_recipes table is never touched. -/
def cascadeFromMiniatures (db : Db J) (dead : Miniature → Bool) : Db J :=
  { db with
    miniatures := db.miniatures.filter fun m => !dead m,
    photos := db.photos.filter fun ph =>
      !(db.miniatures.any fun m => dead m && m.id == ph.miniature_id),
    links := db.links.filter fun l =>
      !(db.miniatures.any fun m => dead m && m.id == l.miniature_id) }

/-- ProjectRepository::delete: DELETE FROM projects WHERE id = ?,
returning rows_affected > 0; the schema cascade removes the deleted
project's miniatures and, transitively, their photos and link rows. -/
def ProjectRepository.delete (db : Db J) (id : Int) : Db J × Bool :=
  let existed := db.projects.any fun p => p.id == id
  (cascadeFromMiniatures
      { db with projects := db.projects.filter fun p => !(p.id == id) }
      (fun m => existed && m.project_id == id),
   existed)

/-- MiniatureRepository::delete: DELETE FROM miniatures WHERE id = ?,
returning rows_affected > 0; the schema cascade removes the deleted
miniature's photos and link rows. -/
def MiniatureRepository.delete (db : Db J) (id : Int) : Db J × Bool :=
  (cascadeFromMiniatures db (fun m => m.id == id),
   db.miniatures.any fun m => m.id == id)

/-- C2: deleting a Project removes the project row and all of its
miniature rows, their photo rows and their link rows (0 remain), and
the call reports whether the project existed; deleting a non-existent
project id reports "did not exist" and leaves the state unchanged. -/
theorem project_cascade_delete (db : Db J) (pid : Int) :
    ((ProjectRepository.delete db pid).2 =
      (db.projects.any fun p => p.id == pid)) ∧
    ((ProjectRepository.delete db pid).1.projects.filter
        (fun p => p.id == pid) = []) ∧
    ((ProjectRepository.delete db pid).2 = true →
      (ProjectRepository.delete db pid).1.miniatures.filter
          (fun m => m.project_id == pid) = [] ∧
      ∀ m ∈ db.miniatures, m.project_id = pid →
        (ProjectRepository.delete db pid).1.photos.filter
            (fun ph => ph.miniature_id == m.id) = [] ∧
        (ProjectRepository.delete db pid).1.links.filter
            (fun l => l.miniature_id == m.id) = []) ∧
    ((ProjectRepository.delete db pid).2 = false →
      (ProjectRepository.delete db pid).1 = db) := by
  refine ⟨rfl, ?_, ?_, ?_⟩
  · simp only [ProjectRepository.delete, cascadeFromMiniatures]
    rw [List.filter_filter]
    simp
  · intro hex
    replace hex : (db.projects.any fun p => p.id == pid) = true := hex
    constructor
    · simp only [ProjectRepository.delete, cascadeFromMiniatures]
      rw [List.filter_filter]
      refine List.filter_eq_nil_iff.mpr ?_
      intro m _
      simp [hex]
    · intro m hm hmp
      constructor
      · simp only [ProjectRepository.delete, cascadeFromMiniatures]
        refine List.filter_eq_nil_iff.mpr ?_
        intro ph hph
        rcases List.mem_filter.mp hph with ⟨_, hkeep⟩
        rw [Bool.not_eq_eq_eq_not, Bool.not_true, List.any_eq_false] at hkeep
        have := hkeep m hm
        simp only [hex, hmp, Bool.true_and, beq_self_eq_true,
          Bool.and_eq_true, beq_iff_eq, not_and] at this
        simp only [beq_iff_eq]
        intro heq
        exact this heq.symm
      · simp only [ProjectRepository.delete, cascadeFromMiniatures]
        refine List.filter_eq_nil_iff.mpr ?_
        intro l hl
        rcases List.mem_filter.mp hl with ⟨_, hkeep⟩
        rw [Bool.not_eq_eq_eq_not, Bool.not_true, List.any_eq_false] at hkeep
        have := hkeep m hm
        simp only [hex, hmp, Bool.true_and, beq_self_eq_true,
          Bool.and_eq_true, beq_iff_eq, not_and] at this
        simp only [beq_iff_eq]
        intro heq
        exact this heq.symm
  · intro hex
    replace hex : (db.projects.any fun p => p.id == pid) = false := hex
    have hproj : (db.projects.filter fun p => !(p.id == pid)) = db.projects := by
      refine List.filter_eq_self.mpr ?_
      intro p hp
      have := (List.any_eq_false.mp hex) p hp
      simpa using this
    have hminis : (db.miniatures.filter fun m =>
        !((db.projects.any fun p => p.id == pid) && m.project_id == pid)) =
          db.miniatures := by
      simp [hex]
    have hphotos : (db.photos.filter fun ph =>
        !(db.miniatures.any fun m =>
          ((db.projects.any fun p => p.id == pid) && m.project_id == pid) &&
            m.id == ph.miniature_id)) = db.photos := by
      simp [hex]
    have hlinks : (db.links.filter fun l =>
        !(db.miniatures.any fun m =>
          ((db.projects.any fun p => p.id == pid) && m.project_id == pid) &&
            m.id == l.miniature_id)) = db.links := by
      simp [hex]
    simp only [ProjectRepository.delete, cascadeFromMiniatures]
    rw [hproj, hminis, hphotos, hlinks]

/-- C3: deleting a Miniature removes its photo rows and its
miniature_recipes link rows, while the painting_recipes table (and in
particular every linked recipe row) is left completely unchanged. -/
theorem miniature_cascade_delete (db : Db J) (mid : Int) :
    ((MiniatureRepository.delete db mid).1.recipes = db.recipes) ∧
    ((MiniatureRepository.delete db mid).2 =
      (db.miniatures.any fun m => m.id == mid)) ∧
    ((MiniatureRepository.delete db mid).1.miniatures.filter
        (fun m => m.id == mid) = []) ∧
    ((MiniatureRepository.delete db mid).1.photos.filter
        (fun ph => ph.miniature_id == mid) =
      db.photos.filter fun ph =>
        !(db.miniatures.any fun m => m.id == mid) && ph.miniature_id == mid) ∧
    (∀ m ∈ db.miniatures, m.id = mid →
      (MiniatureRepository.delete db mid).1.photos.filter
          (fun ph => ph.miniature_id == mid) = [] ∧
      (MiniatureRepository.delete db mid).1.links.filter
          (fun l => l.miniature_id == mid) = []) ∧
    ((MiniatureRepository.delete db mid).1.projects = db.projects) := by
  refine ⟨rfl, rfl, ?_, ?_, ?_, rfl⟩
  · simp only [MiniatureRepository.delete, cascadeFromMiniatures]
    rw [List.filter_filter]
    simp
  · simp only [MiniatureRepository.delete, cascadeFromMiniatures]
    rw [List.filter_filter]
    refine List.filter_congr ?_
    intro ph _
    by_cases hany : (db.miniatures.any fun m => m.id == mid) = true
    · by_cases hmem : (ph.miniature_id == mid) = true
      · have : (db.miniatures.any fun m =>
            (m.id == mid) && m.id == ph.miniature_id) = true := by
          rcases List.any_eq_true.mp hany with ⟨m, hm, hmid⟩
          refine List.any_eq_true.mpr ⟨m, hm, ?_⟩
          simp only [beq_iff_eq] at hmid hmem ⊢
          simp [hmid, hmem]
        simp [this, hany, hmem]
      · simp only [Bool.not_eq_true] at hmem
        simp [hmem, hany]
    · simp only [Bool.not_eq_true] at hany
      have : (db.miniatures.any fun m =>
          (m.id == mid) && m.id == ph.miniature_id) = false := by
        rw [List.any_eq_false]
        intro m hm
        have := (List.any_eq_false.mp hany) m hm
        simp only [Bool.and_eq_true, not_and]
        intro h
        exact absurd h this
      simp [this, hany]
  · intro m hm hmid
    have hany : (db.miniatures.any fun m => m.id == mid) = true :=
      List.any_eq_true.mpr ⟨m, hm, by simp [hmid]⟩
    constructor
    · simp only [MiniatureRepository.delete, cascadeFromMiniatures]
      rw [List.filter_filter]
      refine List.filter_eq_nil_iff.mpr ?_
      intro ph _
      simp only [Bool.and_eq_true, beq_iff_eq, Bool.not_eq_true',
        List.any_eq_false, not_and]
      intro hphm hall
      have := hall m hm
      simp [hmid, hphm] at this
    · simp only [MiniatureRepository.delete, cascadeFromMiniatures]
      refine List.filter_eq_nil_iff.mpr ?_
      intro l hl
      rcases List.mem_filter.mp hl with ⟨_, hkeep⟩
      rw [Bool.not_eq_eq_eq_not, Bool.not_true, List.any_eq_false] at hkeep
      have := hkeep m hm
      simp only [beq_iff_eq, hmid, Bool.and_eq_true, not_and] at this
      simp only [beq_iff_eq]
      intro heq
      exact this trivial heq.symm

/-- Concrete check of `project_cascade_delete` on `dbW`: deleting
project 1 reports "existed" and leaves no miniature, photo or link row
of that project behind. -/
theorem project_cascade_delete_witness :
    (ProjectRepository.delete dbW 1).2 = true ∧
    (ProjectRepository.delete dbW 1).1.miniatures.filter
        (fun m => m.project_id == 1) = [] ∧
    (ProjectRepository.delete dbW 1).1.photos.filter
        (fun ph => ph.miniature_id == miniW.id) = [] ∧
    (ProjectRepository.delete dbW 1).1.links.filter
        (fun l => l.miniature_id == miniW.id) = [] :=
  ⟨by decide,
   ((project_cascade_delete dbW 1).2.2.1 (by decide)).1,
   (((project_cascade_delete dbW 1).2.2.1 (by decide)).2 miniW (by decide)
     (by decide)).1,
   (((project_cascade_delete dbW 1).2.2.1 (by decide)).2 miniW (by decide)
     (by decide)).2⟩

/-- Concrete check of `miniature_cascade_delete` on `dbW`: deleting
miniature 1 keeps the recipes table intact while its photo and link
rows disappear. -/
theorem miniature_cascade_delete_witness :
    (MiniatureRepository.delete dbW 1).1.recipes = dbW.recipes ∧
    (MiniatureRepository.delete dbW 1).1.photos.filter
        (fun ph => ph.miniature_id == 1) = [] ∧
    (MiniatureRepository.delete dbW 1).1.links.filter
        (fun l => l.miniature_id == 1) = [] :=
  ⟨(miniature_cascade_delete dbW 1).1,
   ((miniature_cascade_delete dbW 1).2.2.2.2.1 miniW (by decide)
     (by decide)).1,
   ((miniature_cascade_delete dbW 1).2.2.2.2.1 miniW (by decide)
     (by decide)).2⟩

/-! ### Link table operations (repositories/miniature_recipe_repository.rs) -/

/-- MiniatureRecipeRepository::link: INSERT OR IGNORE (SQLite) /
INSERT ... ON CONFLICT DO NOTHING (Postgres).  Modelled from the spec:
the miniature_recipes table (schema in the migrations directory, not
under src/) has a uniqueness constraint on the (miniature_id,
recipe_id) pair — "MiniatureRecipeLink: {miniature_id, recipe_id},
unique pair" — so the insert is ignored exactly when the pair is
already present. -/
def MiniatureRecipeRepository.link (db : Db J)
    (miniature_id recipe_id : Int) : Db J :=
  if db.links.any fun l =>
      l.miniature_id == miniature_id && l.recipe_id == recipe_id then
    db
  else
    { db with links := db.links ++
        [{ miniature_id := miniature_id, recipe_id := recipe_id }] }

/-- MiniatureRecipeRepository::unlink: DELETE FROM miniature_recipes
WHERE miniature_id = ? AND recipe_id = ?, returning rows_affected > 0. -/
def MiniatureRecipeRepository.unlink (db : Db J)
    (miniature_id recipe_id : Int) : Db J × Bool :=
  ({ db with links := db.links.filter fun l =>
      !(l.miniature_id == miniature_id && l.recipe_id == recipe_id) },
   db.links.any fun l =>
     l.miniature_id == miniature_id && l.recipe_id == recipe_id)

/-- C6: link is idempotent — linking the same (miniature, recipe) pair
twice equals linking it once, and (assuming the unique-pair invariant of
the stored state) leaves exactly one link row for the pair; unlink
returns whether a link existed, and in particular returns "did not
exist" when 0 links for the pair are present. -/
theorem link_idempotent_unlink_existence (db : Db J) (m r : Int) :
    (MiniatureRecipeRepository.link (MiniatureRecipeRepository.link db m r)
        m r = MiniatureRecipeRepository.link db m r) ∧
    ((db.links.countP fun l =>
        l.miniature_id == m && l.recipe_id == r) ≤ 1 →
      ((MiniatureRecipeRepository.link (MiniatureRecipeRepository.link db m r)
          m r).links.countP fun l =>
            l.miniature_id == m && l.recipe_id == r) = 1) ∧
    ((MiniatureRecipeRepository.unlink db m r).2 =
      (db.links.any fun l => l.miniature_id == m && l.recipe_id == r)) ∧
    ((db.links.countP fun l =>
        l.miniature_id == m && l.recipe_id == r) = 0 →
      (MiniatureRecipeRepository.unlink db m r).2 = false) := by
  by_cases h : (db.links.any fun l =>
      l.miniature_id == m && l.recipe_id == r) = true
  · refine ⟨?_, ?_, rfl, ?_⟩
    · simp [MiniatureRecipeRepository.link, h]
    · intro hle
      have hpos : 0 < db.links.countP fun l =>
          l.miniature_id == m && l.recipe_id == r := by
        rcases List.any_eq_true.mp h with ⟨l, hl, hp⟩
        exact List.countP_pos_iff.mpr ⟨l, hl, hp⟩
      simp only [MiniatureRecipeRepository.link, h, if_true]
      omega
    · intro hzero
      have : ∀ l ∈ db.links,
          ¬(l.miniature_id == m && l.recipe_id == r) = true :=
        List.countP_eq_zero.mp hzero
      rcases List.any_eq_true.mp h with ⟨l, hl, hp⟩
      exact absurd hp (this l hl)
  · replace h : (db.links.any fun l =>
        l.miniature_id == m && l.recipe_id == r) = false := by
      simpa using h
    have hzero : (db.links.countP fun l =>
        l.miniature_id == m && l.recipe_id == r) = 0 :=
      List.countP_eq_zero.mpr (List.any_eq_false.mp h)
    have hsat : ((MrLink.mk m r).miniature_id == m &&
        (MrLink.mk m r).recipe_id == r) = true := by simp
    have hany2 : ((db.links ++ [MrLink.mk m r]).any fun l =>
        l.miniature_id == m && l.recipe_id == r) = true := by
      simp
    refine ⟨?_, ?_, rfl, ?_⟩
    · simp [MiniatureRecipeRepository.link, h, hany2]
    · intro _
      simp only [MiniatureRecipeRepository.link, h, Bool.false_eq_true,
        if_false, hany2, if_true]
      rw [List.countP_append, hzero]
      simp
    · intro _
      simpa [MiniatureRecipeRepository.unlink] using h

/-- Concrete check of `link_idempotent_unlink_existence` on `dbW`:
double-linking pair (1, 1) (already present once) leaves exactly one
row, and unlinking the absent pair (2, 2) reports "did not exist". -/
theorem link_idempotent_unlink_existence_witness :
    ((MiniatureRecipeRepository.link
        (MiniatureRecipeRepository.link dbW 1 1) 1 1).links.countP
      fun l => l.miniature_id == 1 && l.recipe_id == 1) = 1 ∧
    (MiniatureRecipeRepository.unlink dbW 2 2).2 = false :=
  ⟨(link_idempotent_unlink_existence dbW 1 1).2.1 (by decide),
   (link_idempotent_unlink_existence dbW 2 2).2.2.2 (by decide)⟩

/-! ### Local storage backend (storage/mod.rs, storage/local.rs) -/

inductive StorageError
  | ioError (msg : String)
  | s3Error (msg : String)
  | invalidPath (path : String)
  | fileNotFound (path : String)
deriving DecidableEq, Repr

/-- Rust str::replace("..", ""): remove every leftmost, non-overlapping
occurrence of the two-character sequence "..". -/
def removeDotDot : List Char → List Char
  | '.' :: '.' :: rest => removeDotDot rest
  | c :: rest => c :: removeDotDot rest
  | [] => []

/-- Rust str::replace("\\", "/"). -/
def backslashToSlash (l : List Char) : List Char :=
  l.map fun c => if c == '\\' then '/' else c

/-- Rust str::trim_start_matches('/'). -/
def stripLeadingSlashes (l : List Char) : List Char :=
  l.dropWhile fun c => c == '/'

/-- Rust str::trim_end_matches('/'). -/
def stripTrailingSlashes (l : List Char) : List Char :=
  (l.reverse.dropWhile fun c => c == '/').reverse

/-- LocalStorage::sanitize_path: remove ".." occurrences, normalize
backslashes to forward slashes, strip leading slashes, and reject an
empty result. -/
def sanitize_path (file_path : String) : Except StorageError String :=
  if (stripLeadingSlashes (backslashToSlash (removeDotDot file_path.data))).isEmpty then
    .error (.invalidPath "Empty path after sanitization")
  else
    .ok (String.mk
      (stripLeadingSlashes (backslashToSlash (removeDotDot file_path.data))))

/-- The files under the storage base directory: an association list from
storage keys to byte contents. -/
abbrev FsState := List (String × List Nat)

def fsLookup (st : FsState) (k : String) : Option (List Nat) :=
  (st.find? fun e => e.1 == k).map Prod.snd

/-- tokio fs::write: create or truncate-overwrite the file at the key. -/
def fsWrite (st : FsState) (k : String) (data : List Nat) : FsState :=
  (k, data) :: st.filter fun e => !(e.1 == k)

/-- tokio fs::remove_file. -/
def fsRemove (st : FsState) (k : String) : FsState :=
  st.filter fun e => !(e.1 == k)

/-- LocalStorage::store: sanitize, then write and return the sanitized
key; on a sanitization error nothing is written. -/
def LocalStorage.store (st : FsState) (file_data : List Nat)
    (file_path : String) : Except StorageError String × FsState :=
  match sanitize_path file_path with
  | .error e => (.error e, st)
  | .ok k => (.ok k, fsWrite st k file_data)

/-- LocalStorage::retrieve: sanitize, then read; FileNotFound reports
the original (unsanitized) path string, as in the Rust code. -/
def LocalStorage.retrieve (st : FsState) (file_path : String) :
    Except StorageError (List Nat) :=
  match sanitize_path file_path with
  | .error e => .error e
  | .ok k =>
    match fsLookup st k with
    | none => .error (.fileNotFound file_path)
    | some data => .ok data

/-- LocalStorage::delete: sanitize, check existence, then remove. -/
def LocalStorage.delete (st : FsState) (file_path : String) :
    Except StorageError Unit × FsState :=
  match sanitize_path file_path with
  | .error e => (.error e, st)
  | .ok k =>
    if (fsLookup st k).isSome then (.ok (), fsRemove st k)
    else (.error (.fileNotFound file_path), st)

/-- LocalStorage::exists (named existsFile because "exists" is a Lean
keyword): sanitize, then report presence; absence is not an error. -/
def LocalStorage.existsFile (st : FsState) (file_path : String) :
    Except StorageError Bool :=
  match sanitize_path file_path with
  | .error e => .error e
  | .ok k => .ok (fsLookup st k).isSome

/-- LocalStorage::get_url: base_url.trim_end_matches('/') + "/" + key. -/
def LocalStorage.get_url (base_url : String) (file_path : String) :
    Except StorageError String :=
  match sanitize_path file_path with
  | .error e => .error e
  | .ok k => .ok (String.mk (stripTrailingSlashes base_url.data ++ '/' :: k.data))

/-- Whether a character list contains two adjacent dots, i.e. the
substring "..". -/
def hasDotDot : List Char → Bool
  | [] => false
  | [_] => false
  | a :: b :: rest => (a == '.' && b == '.') || hasDotDot (b :: rest)

theorem removeDotDot_cons_eq (c : Char) (rest : List Char)
    (h : ∀ (r : List Char), c = '.' → rest = '.' :: r → False) :
    removeDotDot (c :: rest) = c :: removeDotDot rest := by
  rw [removeDotDot.eq_def]
  split
  · rename_i r heq
    injection heq with h1 h2
    exact (h r h1 h2).elim
  · rename_i c2 rest2 hside heq
    injection heq with h1 h2
    subst h1
    subst h2
    rfl
  · rename_i heq
    exact absurd heq (by simp)

theorem removeDotDot_head_dot : ∀ (l : List Char) (d : Char) (out : List Char),
    removeDotDot l = d :: out → d = '.' → l.head? = some '.' := by
  intro l
  induction l using removeDotDot.induct with
  | case1 rest ih =>
    intro d out heq hd
    rfl
  | case2 c rest h ih =>
    intro d out heq hd
    rw [removeDotDot_cons_eq c rest h] at heq
    injection heq with h1 h2
    simp only [List.head?_cons, Option.some.injEq]
    rw [h1]
    exact hd
  | case3 =>
    intro d out heq hd
    simp [removeDotDot] at heq

/-- The output of the ".."-removal pass never contains "..". -/
theorem hasDotDot_removeDotDot : ∀ l : List Char,
    hasDotDot (removeDotDot l) = false := by
  intro l
  induction l using removeDotDot.induct with
  | case1 rest ih => simpa [removeDotDot] using ih
  | case2 c rest h ih =>
    rw [removeDotDot_cons_eq c rest h]
    cases hout : removeDotDot rest with
    | nil => rfl
    | cons d out =>
      rw [hout] at ih
      show ((c == '.' && d == '.') || hasDotDot (d :: out)) = false
      rw [ih, Bool.or_false]
      by_cases hc : c = '.'
      · by_cases hdd : d = '.'
        · exfalso
          have hhead := removeDotDot_head_dot rest d out hout hdd
          cases rest with
          | nil => simp at hhead
          | cons x xs =>
            simp at hhead
            exact h xs hc (by rw [hhead])
        · simp [hdd]
      · simp [hc]
  | case3 => rfl

theorem slashChar_eq_dot (c : Char) :
    ((if c == '\\' then '/' else c) == '.') = (c == '.') := by
  by_cases h : c = '\\'
  · subst h
    decide
  · have hb : (c == '\\') = false := by simp [h]
    rw [hb]
    simp

theorem hasDotDot_backslashToSlash (l : List Char) :
    hasDotDot (backslashToSlash l) = hasDotDot l := by
  induction l using hasDotDot.induct with
  | case1 => rfl
  | case2 a => rfl
  | case3 a b rest ih =>
    show ((((if a == '\\' then '/' else a) == '.') &&
        ((if b == '\\' then '/' else b) == '.')) ||
        hasDotDot (backslashToSlash (b :: rest))) =
      (((a == '.') && (b == '.')) || hasDotDot (b :: rest))
    rw [slashChar_eq_dot, slashChar_eq_dot, ih]

theorem hasDotDot_tail (a : Char) (l : List Char)
    (h : hasDotDot (a :: l) = false) : hasDotDot l = false := by
  cases l with
  | nil => rfl
  | cons b r =>
    have : ((a == '.' && b == '.') || hasDotDot (b :: r)) = false := h
    exact (Bool.or_eq_false_iff.mp this).2

theorem hasDotDot_dropWhile (p : Char → Bool) : ∀ l : List Char,
    hasDotDot l = false → hasDotDot (l.dropWhile p) = false := by
  intro l
  induction l with
  | nil => intro h; exact h
  | cons a rest ih =>
    intro h
    by_cases hpa : p a = true
    · rw [List.dropWhile_cons, if_pos hpa]
      exact ih (hasDotDot_tail a rest h)
    · rw [List.dropWhile_cons, if_neg (by simp [hpa])]
      exact h

theorem backslashToSlash_no_backslash (l : List Char) :
    (backslashToSlash l).all (fun c => !(c == '\\')) = true := by
  rw [List.all_eq_true]
  intro x hx
  rcases List.mem_map.mp hx with ⟨c, _, hc⟩
  subst hc
  by_cases h : c = '\\'
  · subst h
    decide
  · have hb : (c == '\\') = false := by simp [h]
    simp [hb]

theorem dropWhile_head_not (p : Char → Bool) : ∀ (l : List Char) (c : Char),
    (l.dropWhile p).head? = some c → p c = false := by
  intro l
  induction l with
  | nil =>
    intro c h
    simp at h
  | cons a rest ih =>
    intro c h
    by_cases hpa : p a = true
    · rw [List.dropWhile_cons, if_pos hpa] at h
      exact ih c h
    · rw [List.dropWhile_cons, if_neg (by simp [hpa])] at h
      simp only [List.head?_cons, Option.some.injEq] at h
      rw [← h]
      simpa using hpa

/-- C7: store(bytes, requestedKey) sanitizes the requested key (removing
".." occurrences, turning backslashes into forward slashes, stripping
leading separators), fails with an InvalidPath error without writing
when the key is empty after sanitization, and otherwise writes the
bytes under — and returns exactly — the sanitized key. -/
theorem store_returns_sanitized_key (st : FsState) (data : List Nat)
    (p : String) :
    (∀ e, sanitize_path p = .error e →
      LocalStorage.store st data p = (.error e, st)) ∧
    (∀ k, sanitize_path p = .ok k →
      LocalStorage.store st data p = (.ok k, fsWrite st k data) ∧
      k.data = stripLeadingSlashes (backslashToSlash (removeDotDot p.data)) ∧
      k.data ≠ []) ∧
    (sanitize_path p = .error (.invalidPath "Empty path after sanitization") ↔
      stripLeadingSlashes (backslashToSlash (removeDotDot p.data)) = []) := by
  refine ⟨?_, ?_, ?_⟩
  · intro e he
    simp [LocalStorage.store, he]
  · intro k hk
    refine ⟨by simp [LocalStorage.store, hk], ?_, ?_⟩
    · unfold sanitize_path at hk
      split at hk
      · exact absurd hk (by simp)
      · injection hk with h1
        rw [← h1]
    · unfold sanitize_path at hk
      split at hk
      · exact absurd hk (by simp)
      · rename_i hne
        injection hk with h1
        rw [← h1]
        simpa using hne
  · unfold sanitize_path
    constructor
    · intro h
      split at h
      · rename_i hemp
        simpa using hemp
      · exact absurd h (by simp)
    · intro h
      rw [if_pos (by simpa using h)]

/-- C10: every LocalStorage operation applies the same sanitization
before touching the filesystem, and a successfully sanitized key never
contains "..", never contains a backslash, and never begins with a
separator — so joining it under the base directory stays inside the
base directory. -/
theorem storage_sanitization_safety (st : FsState) (data : List Nat)
    (base_url p : String) :
    (∀ k, sanitize_path p = .ok k →
      hasDotDot k.data = false ∧
      k.data.all (fun c => !(c == '\\')) = true ∧
      (∀ c, k.data.head? = some c → ¬c = '/')) ∧
    (∀ e, sanitize_path p = .error e →
      LocalStorage.store st data p = (.error e, st) ∧
      LocalStorage.retrieve st p = .error e ∧
      LocalStorage.delete st p = (.error e, st) ∧
      LocalStorage.existsFile st p = .error e ∧
      LocalStorage.get_url base_url p = .error e) ∧
    (∀ k, sanitize_path p = .ok k →
      LocalStorage.store st data p = (.ok k, fsWrite st k data) ∧
      LocalStorage.retrieve st p =
        (match fsLookup st k with
         | none => .error (.fileNotFound p)
         | some d => .ok d) ∧
      LocalStorage.delete st p =
        (if (fsLookup st k).isSome then (.ok (), fsRemove st k)
         else (.error (.fileNotFound p), st)) ∧
      LocalStorage.existsFile st p = .ok (fsLookup st k).isSome ∧
      LocalStorage.get_url base_url p =
        .ok (String.mk (stripTrailingSlashes base_url.data ++ '/' :: k.data))) := by
  refine ⟨?_, ?_, ?_⟩
  · intro k hk
    have hdata : k.data =
        stripLeadingSlashes (backslashToSlash (removeDotDot p.data)) := by
      unfold sanitize_path at hk
      split at hk
      · exact absurd hk (by simp)
      · injection hk with h1
        rw [← h1]
    refine ⟨?_, ?_, ?_⟩
    · rw [hdata]
      exact hasDotDot_dropWhile _ _ (by
        rw [hasDotDot_backslashToSlash]
        exact hasDotDot_removeDotDot _)
    · rw [hdata]
      rw [List.all_eq_true]
      intro x hx
      have hall := backslashToSlash_no_backslash (removeDotDot p.data)
      rw [List.all_eq_true] at hall
      exact hall x
        ((List.dropWhile_sublist (fun c => c == '/')).subset hx)
    · intro c hc
      rw [hdata] at hc
      have := dropWhile_head_not (fun c => c == '/') _ c hc
      simpa using this
  · intro e he
    exact ⟨by simp [LocalStorage.store, he],
      by simp [LocalStorage.retrieve, he],
      by simp [LocalStorage.delete, he],
      by simp [LocalStorage.existsFile, he],
      by simp [LocalStorage.get_url, he]⟩
  · intro k hk
    exact ⟨by simp [LocalStorage.store, hk],
      by simp [LocalStorage.retrieve, hk],
      by simp [LocalStorage.delete, hk],
      by simp [LocalStorage.existsFile, hk],
      by simp [LocalStorage.get_url, hk]⟩

/-- Concrete check of `store_returns_sanitized_key`: storing under the
requested key "../a\\b.png" actually writes under — and returns — the
sanitized key "a/b.png", and storing under "..//" fails without
writing. -/
theorem store_returns_sanitized_key_witness :
    LocalStorage.store [] [7] "../a\\b.png" = (.ok "a/b.png", fsWrite [] "a/b.png" [7]) ∧
    "a/b.png".data ≠ [] ∧
    LocalStorage.store [] [7] "..//" =
      (.error (.invalidPath "Empty path after sanitization"), []) :=
  ⟨((store_returns_sanitized_key [] [7] "../a\\b.png").2.1 "a/b.png" rfl).1,
   ((store_returns_sanitized_key [] [7] "../a\\b.png").2.1 "a/b.png" rfl).2.2,
   (store_returns_sanitized_key [] [7] "..//").1
     (.invalidPath "Empty path after sanitization") rfl⟩

/-- Concrete check of `storage_sanitization_safety`: the sanitized form
of "..\\..\\secret/../x" contains no "..", no backslash, does not start
with a separator, and retrieve consults exactly that sanitized key. -/
theorem storage_sanitization_safety_witness :
    hasDotDot "secret//x".data = false ∧
    "secret//x".data.all (fun c => !(c == '\\')) = true ∧
    LocalStorage.retrieve [] "..\\..\\secret/../x" =
      (match fsLookup [] "secret//x" with
       | none => .error (.fileNotFound "..\\..\\secret/../x")
       | some d => .ok d) :=
  ⟨((storage_sanitization_safety [] [] "http://h" "..\\..\\secret/../x").1
      "secret//x" rfl).1,
   ((storage_sanitization_safety [] [] "http://h" "..\\..\\secret/../x").1
      "secret//x" rfl).2.1,
   ((storage_sanitization_safety [] [] "http://h" "..\\..\\secret/../x").2.2
      "secret//x" rfl).2.1⟩

/-! ### Photo repository and the upload validation gate
(repositories/photo_repository.rs, handlers/photos.rs) -/

/-- PhotoRepository::create: INSERT ... RETURNING. -/
def PhotoRepository.create (db : Db J) (newId : Int) (now : Nat)
    (miniature_id : Int) (filename file_path : String) (file_size : Int)
    (mime_type : String) : Db J × Photo :=
  let row : Photo :=
    { id := newId, miniature_id := miniature_id, filename := filename,
      file_path := file_path, file_size := file_size,
      mime_type := mime_type, uploaded_at := now }
  ({ db with photos := db.photos ++ [row] }, row)

/-- handlers/photos.rs MAX_FILE_SIZE = 10 * 1024 * 1024. -/
def MAX_FILE_SIZE : Nat := 10 * 1024 * 1024

/-- handlers/photos.rs ALLOWED_MIME_TYPES. -/
def ALLOWED_MIME_TYPES : List String :=
  ["image/jpeg", "image/png", "image/webp"]

/-- The error classes of upload_photo responses (the formatted JSON
message strings are presentation and are omitted; constructors mirror
the error_type values of the handler). -/
inductive UploadError
  | uNotFound
  | uDatabaseError
  | invalidMultipart
  | invalidFileType
  | fileReadError
  | fileTooLarge
  | missingFile
  | missingFilename
  | missingMimeType
  | configError
  | uStorageError
deriving DecidableEq, Repr

/-- Whether an upload error is an input-validation rejection (produced
by the multipart gate before any storage or database write). -/
def UploadError.isValidation : UploadError → Bool
  | .invalidMultipart | .invalidFileType | .fileReadError
  | .fileTooLarge | .missingFile | .missingFilename
  | .missingMimeType => true
  | _ => false

/-- One field of the multipart form. -/
structure MultipartField where
  name : String
  file_name : Option String
  content_type : Option String
  bytes : List Nat
deriving DecidableEq, Repr

/-- The multipart loop of upload_photo: for each field named "photo"
the filename and content type are (re)assigned, a present content type
is checked against ALLOWED_MIME_TYPES, the payload size is checked
against MAX_FILE_SIZE, and the bytes are kept; after the loop the three
accumulators must all be present. -/
def processFields : List MultipartField → Option (List Nat) →
    Option String → Option String →
    Except UploadError (List Nat × String × String)
  | [], file_data, filename, mime_type =>
    match file_data with
    | none => .error .missingFile
    | some data =>
      match filename with
      | none => .error .missingFilename
      | some fn =>
        match mime_type with
        | none => .error .missingMimeType
        | some mt => .ok (data, fn, mt)
  | field :: rest, file_data, filename, mime_type =>
    if field.name == "photo" then
      match field.content_type with
      | some mt =>
        if !(ALLOWED_MIME_TYPES.contains mt) then
          .error .invalidFileType
        else if field.bytes.length > MAX_FILE_SIZE then
          .error .fileTooLarge
        else
          processFields rest (some field.bytes) field.file_name
            field.content_type
      | none =>
        if field.bytes.length > MAX_FILE_SIZE then
          .error .fileTooLarge
        else
          processFields rest (some field.bytes) field.file_name
            field.content_type
    else
      processFields rest file_data filename mime_type

/-- The repository calls a handler performs, in order. -/
inductive RepoCall
  | findProject (id : Int)
  | findMiniature (id : Int)
  | findRecipe (id : Int)
  | insertProject (id : Int)
  | insertMiniature (project_id : Int)
  | insertRecipe (id : Int)
  | insertPhoto (miniature_id : Int)
  | updateProject (id : Int)
  | updateMiniature (id : Int)
  | updateRecipe (id : Int)
deriving DecidableEq, Repr

/-- Whether a repository call writes to the database. -/
def RepoCall.isWrite : RepoCall → Bool
  | .findProject _ | .findMiniature _ | .findRecipe _ => false
  | _ => true

/-- handlers/photos.rs upload_photo: parent-miniature check, multipart
gate, StorageService::store_photo (whose generated unique key is the
storageKey parameter, the UUID being external randomness), then
PhotoRepository::create.  Returns (result, database, storage state,
repository-call trace). -/
def upload_photo (db : Db J) (fields : List MultipartField)
    (storageKey : String) (newId : Int) (now : Nat) (miniature_id : Int)
    (st : FsState) :
    Except UploadError Photo × Db J × FsState × List RepoCall :=
  match MiniatureRepository.find_by_id db miniature_id with
  | none => (.error .uNotFound, db, st, [.findMiniature miniature_id])
  | some _ =>
    match processFields fields none none none with
    | .error e => (.error e, db, st, [.findMiniature miniature_id])
    | .ok (data, fn, mt) =>
      match LocalStorage.store st data storageKey with
      | (.error _, st2) =>
        (.error .uStorageError, db, st2, [.findMiniature miniature_id])
      | (.ok key, st2) =>
        let created := PhotoRepository.create db newId now miniature_id
          fn key (Int.ofNat data.length) mt
        (.ok created.2, created.1, st2,
         [.findMiniature miniature_id, .insertPhoto miniature_id])

/-- C5: a payload of exactly 10,485,760 bytes with declared content
type image/png passes the upload gate; 10,485,761 bytes is rejected
with the size error before anything reaches storage (the storage state
is returned unchanged and no write appears in the trace); declared
content type image/jpg is rejected while image/jpeg is accepted; and
the accepted content types are exactly the case-sensitive strings
image/jpeg, image/png, image/webp. -/
theorem upload_boundary (fn : String) (bytes : List Nat) :
    (bytes.length = 10485760 →
      processFields [⟨"photo", some fn, some "image/png", bytes⟩]
        none none none = .ok (bytes, fn, "image/png")) ∧
    (bytes.length = 10485761 →
      processFields [⟨"photo", some fn, some "image/png", bytes⟩]
        none none none = .error .fileTooLarge) ∧
    (∀ (db : Db J) (st : FsState) (key : String) (newId : Int)
        (now : Nat) (mid : Int) (m : Miniature),
      MiniatureRepository.find_by_id db mid = some m →
      bytes.length = 10485761 →
      upload_photo db [⟨"photo", some fn, some "image/png", bytes⟩]
          key newId now mid st =
        (.error .fileTooLarge, db, st, [.findMiniature mid])) ∧
    (processFields [⟨"photo", some fn, some "image/jpg", bytes⟩]
        none none none = .error .invalidFileType) ∧
    (bytes.length ≤ 10485760 →
      processFields [⟨"photo", some fn, some "image/jpeg", bytes⟩]
        none none none = .ok (bytes, fn, "image/jpeg")) ∧
    (∀ mt, ALLOWED_MIME_TYPES.contains mt = true ↔
      (mt = "image/jpeg" ∨ mt = "image/png" ∨ mt = "image/webp")) ∧
    MAX_FILE_SIZE = 10485760 := by
  have hpng : "image/png" ∈ ALLOWED_MIME_TYPES := by decide
  have hjpeg : "image/jpeg" ∈ ALLOWED_MIME_TYPES := by decide
  have hjpg : "image/jpg" ∉ ALLOWED_MIME_TYPES := by decide
  refine ⟨?_, ?_, ?_, ?_, ?_, ?_, rfl⟩
  · intro h
    simp [processFields, hpng, MAX_FILE_SIZE, h]
  · intro h
    simp [processFields, hpng, MAX_FILE_SIZE, h]
  · intro db st key newId now mid m hm h
    have hgate : processFields [⟨"photo", some fn, some "image/png", bytes⟩]
        none none none = .error .fileTooLarge := by
      simp [processFields, hpng, MAX_FILE_SIZE, h]
    simp [upload_photo, hm, hgate]
  · simp [processFields, hjpg]
  · intro h
    simp [processFields, hjpeg, MAX_FILE_SIZE, Nat.not_lt.mpr h]
  · intro mt
    simp [ALLOWED_MIME_TYPES]

/-- Concrete check of `upload_boundary`: a 10,485,761-byte image/png
upload against `dbW` is rejected with the size error, the storage state
comes back unchanged, and image/jpg is rejected by the gate. -/
theorem upload_boundary_witness :
    upload_photo dbW
        [⟨"photo", some "cap.png", some "image/png", List.replicate 10485761 0⟩]
        "miniatures/1/u_cap.png" 9 9 1 [] =
      (.error .fileTooLarge, dbW, [], [.findMiniature 1]) ∧
    processFields [⟨"photo", some "cap.png", some "image/jpg", [0]⟩]
        none none none = .error .invalidFileType :=
  ⟨(upload_boundary "cap.png" (List.replicate 10485761 0)).2.2.1 dbW [] "miniatures/1/u_cap.png" 9 9 1 miniW
      (by decide) (List.length_replicate ..),
   (upload_boundary (J := ColW) "cap.png" [0]).2.2.2.1⟩

/-! ### Create/update handlers with repository-call traces
(handlers/projects.rs, miniatures.rs, recipes.rs) -/

/-- error.rs AppError. -/
inductive AppError
  | databaseError (msg : String)
  | validationError (msg : String)
  | notFound (msg : String)
  | conflict (msg : String)
  | internalServerError (msg : String)
deriving DecidableEq, Repr

/-- handlers/projects.rs create_project: validate name then army, then
insert. -/
def create_project (isAlnum : Char → Bool) (db : Db J) (newId : Int)
    (now : Nat) (request : CreateProjectRequest) :
    Except AppError Project × Db J × List RepoCall :=
  if nameFieldRejected isAlnum request.name then
    (.error (.validationError "Project name is required"), db, [])
  else if nameFieldRejected isAlnum request.army then
    (.error (.validationError "Army is required"), db, [])
  else
    let created := ProjectRepository.create db newId now request
    (.ok created.2, created.1, [.insertProject newId])

/-- handlers/projects.rs update_project: validate the provided fields,
then the repository read-merge-write. -/
def update_project (isAlnum : Char → Bool) (db : Db J) (now : Nat)
    (id : Int) (request : UpdateProjectRequest) :
    Except AppError Project × Db J × List RepoCall :=
  if (match request.name with
      | some n => nameFieldRejected isAlnum n
      | none => false) then
    (.error (.validationError "Project name cannot be empty"), db, [])
  else if (match request.army with
      | some a => nameFieldRejected isAlnum a
      | none => false) then
    (.error (.validationError "Army cannot be empty"), db, [])
  else
    match ProjectRepository.update db now id request with
    | (_, none) =>
      (.error (.notFound s!"Project with id {id} not found"), db,
       [.findProject id])
    | (db2, some p) =>
      (.ok p, db2, [.findProject id, .updateProject id])

/-- handlers/miniatures.rs create_miniature: the parent-project
existence check runs BEFORE the name validation. -/
def create_miniature (isAlnum : Char → Bool) (db : Db J) (newId : Int)
    (now : Nat) (project_id : Int) (request : CreateMiniatureRequest) :
    Except AppError Miniature × Db J × List RepoCall :=
  match ProjectRepository.find_by_id db project_id with
  | none =>
    (.error (.notFound s!"Project with id {project_id} not found"), db,
     [.findProject project_id])
  | some _ =>
    if nameFieldRejected isAlnum request.name then
      (.error (.validationError "Miniature name is required"), db,
       [.findProject project_id])
    else
      let created := MiniatureRepository.create db newId now project_id
        request
      (.ok created.2, created.1,
       [.findProject project_id, .insertMiniature project_id])

/-- handlers/miniatures.rs update_miniature: validate the provided
name, then the repository read-merge-write. -/
def update_miniature (isAlnum : Char → Bool) (db : Db J) (now : Nat)
    (id : Int) (request : UpdateMiniatureRequest) :
    Except AppError Miniature × Db J × List RepoCall :=
  if (match request.name with
      | some n => nameFieldRejected isAlnum n
      | none => false) then
    (.error (.validationError "Miniature name cannot be empty"), db, [])
  else
    match MiniatureRepository.update db now id request with
    | (_, none) =>
      (.error (.notFound s!"Miniature with id {id} not found"), db,
       [.findMiniature id])
    | (db2, some m) =>
      (.ok m, db2, [.findMiniature id, .updateMiniature id])

/-- handlers/recipes.rs create_recipe: validate the name (emptiness
only), then insert. -/
def create_recipe (c : Codec J) (db : Db J) (newId : Int) (now : Nat)
    (request : CreateRecipeRequest) :
    Except AppError PaintingRecipe × Db J × List RepoCall :=
  if recipeNameRejected request.name then
    (.error (.validationError "Recipe name is required"), db, [])
  else
    let created := RecipeRepository.create c db newId now request
    (.ok created.2, created.1, [.insertRecipe newId])

/-- handlers/recipes.rs update_recipe: validate the provided name
(emptiness only), then the repository read-merge-write. -/
def update_recipe (c : Codec J) (db : Db J) (now : Nat) (id : Int)
    (request : UpdateRecipeRequest) :
    Except AppError PaintingRecipe × Db J × List RepoCall :=
  if (match request.name with
      | some n => recipeNameRejected n
      | none => false) then
    (.error (.validationError "Recipe name cannot be empty"), db, [])
  else
    match RecipeRepository.update c db now id request with
    | (_, none) =>
      (.error (.notFound s!"Recipe with id {id} not found"), db,
       [.findRecipe id])
    | (db2, some r) =>
      (.ok r, db2, [.findRecipe id, .updateRecipe id])

/-- C8 (as written) is refuted: in create_miniature the parent-project
existence check — a repository call — runs before the name validation,
so a failed validation is not produced before any repository call.
Concretely: creating a miniature with the empty name under the existing
project 1 of dbW yields the validation error with a non-empty
repository-call trace. -/
theorem validation_before_io_counterexample :
    (create_miniature asciiAlnum dbW 5 9 1
        { name := "", miniature_type := .troop, notes := none }).1 =
      .error (.validationError "Miniature name is required") ∧
    (create_miniature asciiAlnum dbW 5 9 1
        { name := "", miniature_type := .troop, notes := none }).2.2 =
      [.findProject 1] ∧
    ¬((create_miniature asciiAlnum dbW 5 9 1
        { name := "", miniature_type := .troop, notes := none }).2.2 =
      ([] : List RepoCall)) :=
  ⟨rfl, rfl, by decide⟩

/-- C8 (amended): when field validation fails in a create or update
handler, no MUTATING repository call has been made and the database
(and, for photo upload, the storage state) is returned unchanged; in
create_miniature and upload_photo a parent-existence READ precedes
validation, but every call in the trace at a validation failure is a
read. -/
theorem validation_failures_no_writes (isAlnum : Char → Bool)
    (c : Codec J) (db : Db J) (newId : Int) (now : Nat)
    (id pid mid : Int) (cpr : CreateProjectRequest)
    (upr : UpdateProjectRequest) (cmr : CreateMiniatureRequest)
    (umr : UpdateMiniatureRequest) (crr : CreateRecipeRequest)
    (urr : UpdateRecipeRequest) (fields : List MultipartField)
    (key : String) (st : FsState) :
    (∀ msg, (create_project isAlnum db newId now cpr).1 =
        .error (.validationError msg) →
      (create_project isAlnum db newId now cpr).2.1 = db ∧
      ((create_project isAlnum db newId now cpr).2.2.all
        fun r => !r.isWrite) = true) ∧
    (∀ msg, (update_project isAlnum db now id upr).1 =
        .error (.validationError msg) →
      (update_project isAlnum db now id upr).2.1 = db ∧
      ((update_project isAlnum db now id upr).2.2.all
        fun r => !r.isWrite) = true) ∧
    (∀ msg, (create_miniature isAlnum db newId now pid cmr).1 =
        .error (.validationError msg) →
      (create_miniature isAlnum db newId now pid cmr).2.1 = db ∧
      ((create_miniature isAlnum db newId now pid cmr).2.2.all
        fun r => !r.isWrite) = true) ∧
    (∀ msg, (update_miniature isAlnum db now id umr).1 =
        .error (.validationError msg) →
      (update_miniature isAlnum db now id umr).2.1 = db ∧
      ((update_miniature isAlnum db now id umr).2.2.all
        fun r => !r.isWrite) = true) ∧
    (∀ msg, (create_recipe c db newId now crr).1 =
        .error (.validationError msg) →
      (create_recipe c db newId now crr).2.1 = db ∧
      ((create_recipe c db newId now crr).2.2.all
        fun r => !r.isWrite) = true) ∧
    (∀ msg, (update_recipe c db now id urr).1 =
        .error (.validationError msg) →
      (update_recipe c db now id urr).2.1 = db ∧
      ((update_recipe c db now id urr).2.2.all
        fun r => !r.isWrite) = true) ∧
    (∀ e, (upload_photo db fields key newId now mid st).1 = .error e →
      e.isValidation = true →
      (upload_photo db fields key newId now mid st).2.1 = db ∧
      (upload_photo db fields key newId now mid st).2.2.1 = st ∧
      ((upload_photo db fields key newId now mid st).2.2.2.all
        fun r => !r.isWrite) = true) := by
  refine ⟨?_, ?_, ?_, ?_, ?_, ?_, ?_⟩
  · intro msg hres
    by_cases h1 : nameFieldRejected isAlnum cpr.name = true
    · constructor <;> simp [create_project, h1]
    · by_cases h2 : nameFieldRejected isAlnum cpr.army = true
      · constructor <;> simp [create_project, h1, h2]
      · exfalso
        simp [create_project, h1, h2] at hres
  · intro msg hres
    by_cases h1 : (match upr.name with
        | some n => nameFieldRejected isAlnum n
        | none => false) = true
    · constructor <;> simp [update_project, h1]
    · by_cases h2 : (match upr.army with
          | some a => nameFieldRejected isAlnum a
          | none => false) = true
      · constructor <;> simp [update_project, h1, h2]
      · exfalso
        rcases hu : ProjectRepository.update db now id upr with ⟨db2, res⟩
        cases res with
        | none => simp [update_project, h1, h2, hu] at hres
        | some p => simp [update_project, h1, h2, hu] at hres
  · intro msg hres
    cases hfind : ProjectRepository.find_by_id db pid with
    | none =>
      exfalso
      simp [create_miniature, hfind] at hres
    | some pr =>
      by_cases h1 : nameFieldRejected isAlnum cmr.name = true
      · constructor <;> simp [create_miniature, hfind, h1, RepoCall.isWrite]
      · exfalso
        simp [create_miniature, hfind, h1] at hres
  · intro msg hres
    by_cases h1 : (match umr.name with
        | some n => nameFieldRejected isAlnum n
        | none => false) = true
    · constructor <;> simp [update_miniature, h1]
    · exfalso
      rcases hu : MiniatureRepository.update db now id umr with ⟨db2, res⟩
      cases res with
      | none => simp [update_miniature, h1, hu] at hres
      | some m => simp [update_miniature, h1, hu] at hres
  · intro msg hres
    by_cases h1 : recipeNameRejected crr.name = true
    · constructor <;> simp [create_recipe, h1]
    · exfalso
      simp [create_recipe, h1] at hres
  · intro msg hres
    by_cases h1 : (match urr.name with
        | some n => recipeNameRejected n
        | none => false) = true
    · constructor <;> simp [update_recipe, h1]
    · exfalso
      rcases hu : RecipeRepository.update c db now id urr with ⟨db2, res⟩
      cases res with
      | none => simp [update_recipe, h1, hu] at hres
      | some r => simp [update_recipe, h1, hu] at hres
  · intro e he hval
    cases hfind : MiniatureRepository.find_by_id db mid with
    | none =>
      refine ⟨?_, ?_, ?_⟩ <;> simp [upload_photo, hfind, RepoCall.isWrite]
    | some m =>
      cases hgate : processFields fields none none none with
      | error e2 =>
        refine ⟨?_, ?_, ?_⟩ <;>
          simp [upload_photo, hfind, hgate, RepoCall.isWrite]
      | ok triple =>
        exfalso
        obtain ⟨data, fn, mt⟩ := triple
        rcases hst : LocalStorage.store st data key with ⟨res2, st2⟩
        cases res2 with
        | error e3 =>
          simp [upload_photo, hfind, hgate, hst] at he
          rw [← he] at hval
          simp [UploadError.isValidation] at hval
        | ok kk =>
          simp [upload_photo, hfind, hgate, hst] at he

/-- Concrete check of `validation_failures_no_writes`: a whitespace-only
project name is rejected with the database returned unchanged and a
write-free (here empty) call trace. -/
theorem validation_failures_no_writes_witness :
    (create_project asciiAlnum (J := ColW) dbW 5 9
        { name := "   ", game_system := .warhammer40k, army := "A",
          description := none }).2.1 = dbW ∧
    ((create_project asciiAlnum (J := ColW) dbW 5 9
        { name := "   ", game_system := .warhammer40k, army := "A",
          description := none }).2.2.all fun r => !r.isWrite) = true :=
  (validation_failures_no_writes asciiAlnum codecW dbW 5 9 1 1 1
      { name := "   ", game_system := .warhammer40k, army := "A",
        description := none }
      { name := none, game_system := none, army := none,
        description := none }
      { name := "M", miniature_type := .troop, notes := none }
      { name := none, progress_status := none, notes := none }
      { name := "R", miniature_type := .troop, steps := [],
        paints_used := [], techniques := [], notes := none }
      { name := none, steps := none, paints_used := none,
        techniques := none, notes := none }
      [] "" []).1 "Project name is required" rfl

/-! ### Recipe reads under deserialization failure
(repositories/recipe_repository.rs, miniature_recipe_repository.rs) -/

/-- MiniatureRecipeRepository::find_recipes_for_miniature: the inner
join of painting_recipes with miniature_recipes on recipe_id for the
given miniature, ordered by recipe name (under the unique-pair
constraint each matching recipe row appears exactly once). -/
def MiniatureRecipeRepository.find_recipes_for_miniature (c : Codec J)
    (db : Db J) (miniature_id : Int) : List PaintingRecipe :=
  (sortByName (db.recipes.filter fun r =>
    db.links.any fun l =>
      l.miniature_id == miniature_id && l.recipe_id == r.id)).map
    (RecipeRow.toRecipe c)

theorem mem_insertByName {x r : RecipeRow J} {l : List (RecipeRow J)} :
    x ∈ insertByName r l ↔ x = r ∨ x ∈ l := by
  induction l with
  | nil => simp [insertByName]
  | cons a as ih =>
    simp only [insertByName]
    by_cases h : charsLe r.name.data a.name.data = true
    · rw [if_pos h]
      simp
    · rw [if_neg h]
      simp only [List.mem_cons, ih]
      tauto

theorem mem_sortByName {x : RecipeRow J} {l : List (RecipeRow J)} :
    x ∈ sortByName l ↔ x ∈ l := by
  induction l with
  | nil => simp [sortByName]
  | cons a as ih => simp [sortByName, mem_insertByName, ih]

/-- C9: for every stored recipe row whose steps, paints_used or
techniques column fails to deserialize, every read operation
(find_by_id, find_all, find_by_type, find_recipes_for_miniature)
returns the affected field as the empty sequence and succeeds — the
reads are total functions, a failed parse is absorbed by
unwrap_or_default and never propagated as an error. -/
theorem recipe_bad_json_reads_empty (c : Codec J) (db : Db J)
    (id mid : Int) (t : MiniatureType) :
    (∀ row, (db.recipes.find? fun r => r.id == id) = some row →
      RecipeRepository.find_by_id c db id =
        some (RecipeRow.toRecipe c row) ∧
      (c.fromJson row.steps = none →
        (RecipeRow.toRecipe c row).steps = []) ∧
      (c.fromJson row.paints_used = none →
        (RecipeRow.toRecipe c row).paints_used = []) ∧
      (c.fromJson row.techniques = none →
        (RecipeRow.toRecipe c row).techniques = [])) ∧
    (∀ rec ∈ RecipeRepository.find_all c db, ∃ row ∈ db.recipes,
      rec = RecipeRow.toRecipe c row ∧
      (c.fromJson row.steps = none → rec.steps = []) ∧
      (c.fromJson row.paints_used = none → rec.paints_used = []) ∧
      (c.fromJson row.techniques = none → rec.techniques = [])) ∧
    (∀ rec ∈ RecipeRepository.find_by_type c db t, ∃ row ∈ db.recipes,
      rec = RecipeRow.toRecipe c row ∧
      (c.fromJson row.steps = none → rec.steps = []) ∧
      (c.fromJson row.paints_used = none → rec.paints_used = []) ∧
      (c.fromJson row.techniques = none → rec.techniques = [])) ∧
    (∀ rec ∈ MiniatureRecipeRepository.find_recipes_for_miniature c db mid,
      ∃ row ∈ db.recipes,
      rec = RecipeRow.toRecipe c row ∧
      (c.fromJson row.steps = none → rec.steps = []) ∧
      (c.fromJson row.paints_used = none → rec.paints_used = []) ∧
      (c.fromJson row.techniques = none → rec.techniques = [])) := by
  refine ⟨?_, ?_, ?_, ?_⟩
  · intro row hrow
    refine ⟨by simp [RecipeRepository.find_by_id, hrow], ?_, ?_, ?_⟩ <;>
      (intro h; simp [RecipeRow.toRecipe, h])
  · intro rec hrec
    rcases List.mem_map.mp hrec with ⟨row, hrow, hmap⟩
    refine ⟨row, mem_sortByName.mp hrow, hmap.symm, ?_, ?_, ?_⟩ <;>
      (intro h; rw [← hmap]; simp [RecipeRow.toRecipe, h])
  · intro rec hrec
    rcases List.mem_map.mp hrec with ⟨row, hrow, hmap⟩
    refine ⟨row, (List.mem_filter.mp (mem_sortByName.mp hrow)).1,
      hmap.symm, ?_, ?_, ?_⟩ <;>
      (intro h; rw [← hmap]; simp [RecipeRow.toRecipe, h])
  · intro rec hrec
    rcases List.mem_map.mp hrec with ⟨row, hrow, hmap⟩
    refine ⟨row, (List.mem_filter.mp (mem_sortByName.mp hrow)).1,
      hmap.symm, ?_, ?_, ?_⟩ <;>
      (intro h; rw [← hmap]; simp [RecipeRow.toRecipe, h])

/-- A stored recipe row whose three sequence columns all fail to
deserialize. -/
def recRowBad : RecipeRow ColW :=
  { id := 2, name := "Rust", miniature_type := .troop, steps := none,
    paints_used := none, techniques := none, notes := none,
    created_at := 3, updated_at := 3 }

def dbBad : Db ColW := { dbW with recipes := [recRowW, recRowBad] }

/-- Concrete check of `recipe_bad_json_reads_empty`: reading the
corrupted row 2 of `dbBad` by id succeeds and returns empty sequences
for all three affected columns. -/
theorem recipe_bad_json_reads_empty_witness :
    RecipeRepository.find_by_id codecW dbBad 2 =
      some (RecipeRow.toRecipe codecW recRowBad) ∧
    (RecipeRow.toRecipe codecW recRowBad).steps = [] ∧
    (RecipeRow.toRecipe codecW recRowBad).paints_used = [] ∧
    (RecipeRow.toRecipe codecW recRowBad).techniques = [] :=
  have h := (recipe_bad_json_reads_empty codecW dbBad 2 1 .troop).1
    recRowBad (by decide)
  ⟨h.1, h.2.1 rfl, h.2.2.1 rfl, h.2.2.2 rfl⟩

end MiniTracker
